import Mathlib

/-!
Shallow embedding of the `ModularCPU` virtual machine from
`src/aethel_os_nexus.py` (classes `Memory`, `ALU`, `ModularCPU`,
lines 34-108), together with theorems settling the specification
claims about it.

Conventions of the embedding:
* Python integers are modelled as `Int` (arbitrary precision, and
  Python's `%` with a positive modulus agrees with `Int.emod`).
* An operand of an instruction is, per the caller contract in the
  spec (§7), either the string `"R<k>"` naming a register (modelled
  as `Operand.reg k` with `k` the decimal index), an integer literal
  (`Operand.lit n`), or Python `None` (`Operand.null`).
* Python list indexing can raise `IndexError` (for an index below
  `-len` or at/above `len`); fallible operations therefore return
  `Except Unit _`, with `Except.error ()` standing for a raised
  Python exception.
* An instruction is a 4-tuple `(op, dest, arg1, arg2)`; a program
  (`rom_data`) is a list whose entries are instructions or `None`
  (the fetch stage tests the entry for truthiness: a tuple is truthy,
  `None` is falsy), hence `List (Option Instr)`.
-/

namespace Aethel

/-- An instruction operand as the source's `resolve` dispatches on it:
a register name string `"R<k>"` (canonical decimal, `k ≥ 0`), an
integer literal, or Python `None`. -/
inductive Operand where
  | reg (k : Nat)
  | lit (n : Int)
  | null
deriving DecidableEq, Repr

/-- A 4-tuple instruction `(opcode, dest, arg1, arg2)`. -/
structure Instr where
  op : String
  dest : Operand
  arg1 : Operand
  arg2 : Operand
deriving DecidableEq, Repr

/-- `ALU.execute` (source lines 41-49).  Every arithmetic result is
masked with `& 0xFF` (for ints this is `% 256` with Python/Lean
`emod` semantics); `AND`/`OR`/`XOR` are the raw bitwise operations;
Python's `<<` raises `ValueError` on a negative shift count, hence
the `Except`; any unrecognized opcode yields `0`. -/
def ALU.execute (op : String) (v1 v2 : Int) : Except Unit Int :=
  if op = "ADD" then .ok ((v1 + v2) % 256)
  else if op = "SUB" then .ok ((v1 - v2) % 256)
  else if op = "MUL" then .ok ((v1 * v2) % 256)
  else if op = "AND" then .ok (Int.land v1 v2)
  else if op = "OR" then .ok (Int.lor v1 v2)
  else if op = "XOR" then .ok (Int.xor v1 v2)
  else if op = "BSL" then
    if v2 < 0 then .error () else .ok ((v1 * 2 ^ v2.toNat) % 256)
  else .ok 0

/-- The four pipeline slots `self.pipeline = {"F":…,"D":…,"E":…,"W":…}`.
`F`, `D`, `E` hold an in-flight instruction or `None`; `W` holds the
pending writeback payload `(value, target)` or `None`. -/
structure Pipeline where
  F : Option Instr
  D : Option Instr
  E : Option Instr
  W : Option (Int × Operand)
deriving DecidableEq, Repr

/-- The whole CPU state (fields of `ModularCPU.__init__`, lines 52-61).
`ram` is the `Memory(256)` data list (the tick function never touches
it); `screen` is the 32×32 framebuffer of 0/1 pixels. -/
structure ModularCPU where
  core_id : Int
  regs : List Int
  pc : Int
  rom : List (Option Instr)
  ram : List Int
  ports : List Int
  screen : List (List Int)
  pipeline : Pipeline
deriving DecidableEq, Repr

/-- `ModularCPU.__init__(rom_data)`: zeroed registers, PC 0, a 256-byte
RAM, 256 zeroed ports, a cleared 32×32 screen and an empty pipeline. -/
def ModularCPU.init (rom_data : List (Option Instr)) : ModularCPU where
  core_id := 0
  regs := List.replicate 8 0
  pc := 0
  rom := rom_data
  ram := List.replicate 256 0
  ports := List.replicate 256 0
  screen := List.replicate 32 (List.replicate 32 0)
  pipeline := { F := none, D := none, E := none, W := none }

/-- Python `regs[k]` for a nonnegative index `k`: the element when
`k < len(regs)`, otherwise `IndexError`. -/
def regRead (regs : List Int) (k : Nat) : Except Unit Int :=
  if h : k < regs.length then .ok (regs.get ⟨k, h⟩) else .error ()

/-- Python `regs[k] = v` for a nonnegative index `k`. -/
def regWrite (regs : List Int) (k : Nat) (v : Int) : Except Unit (List Int) :=
  if k < regs.length then .ok (regs.set k v) else .error ()

/-- Python `rom[i]` for an arbitrary (possibly negative) index: a
negative index `i` with `-len ≤ i` addresses `rom[len + i]`; an index
below `-len` or at/above `len` raises `IndexError`. -/
def pyIdx (rom : List (Option Instr)) (i : Int) : Except Unit (Option Instr) :=
  if 0 ≤ i then
    if h : i.toNat < rom.length then .ok (rom.get ⟨i.toNat, h⟩) else .error ()
  else
    if h : 0 ≤ i + rom.length ∧ (i + rom.length).toNat < rom.length then
      .ok (rom.get ⟨(i + rom.length).toNat, h.2⟩)
    else .error ()

/-- `ModularCPU.resolve` (lines 63-68): a register operand is forwarded
from the pending writeback payload when the payload targets that very
register name, otherwise read from the register file; a literal is
itself; `None` is `0`. -/
def ModularCPU.resolve (c : ModularCPU) (op : Operand) : Except Unit Int :=
  match op with
  | .reg k =>
    match c.pipeline.W with
    | some (v, t) => if t = Operand.reg k then .ok v else regRead c.regs k
    | none => regRead c.regs k
  | .lit n => .ok n
  | .null => .ok 0

/-- Step 1 of `tick` (lines 71-75): if a writeback payload is pending
and its target is a register name, commit the value to the register
file.  The payload slot itself is cleared at the start of step 2. -/
def writebackStep (c : ModularCPU) : Except Unit ModularCPU :=
  match c.pipeline.W with
  | some (v, t) =>
    match t with
    | .reg k => do
      let regs' ← regWrite c.regs k v
      .ok { c with regs := regs' }
    | _ => .ok c
  | none => .ok c

/-- `self.pipeline["W"] = None` (line 78). -/
def clearW (c : ModularCPU) : ModularCPU :=
  { c with pipeline := { c.pipeline with W := none } }

/-- `self.screen[r][col] = 1`. -/
def setPixel (screen : List (List Int)) (r col : Nat) : List (List Int) :=
  screen.set r ((screen.getD r []).set col 1)

/-- `[[0]*32 for _ in range(32)]`. -/
def emptyScreen : List (List Int) := List.replicate 32 (List.replicate 32 0)

/-- Lines 79-97 of `tick`, operating on the state in which the pending
writeback payload has just been cleared: if the Execute slot holds an
instruction, resolve its operands and dispatch: `OUT` stores `v1` into
port `port % 256` and applies the hardwired effects of ports 0 / 12 / 13;
`JMP` redirects PC and flushes Fetch/Decode; `BEQ` does so conditionally;
anything else goes through the ALU and becomes the new writeback
payload. -/
def executeInner (c : ModularCPU) : Except Unit ModularCPU :=
  match c.pipeline.E with
  | none => .ok c
  | some i => do
    let v1 ← c.resolve i.arg1
    let v2 ← c.resolve i.arg2
    if i.op = "OUT" then do
      let port ← c.resolve i.dest
      let ports' := c.ports.set (port % 256).toNat v1
      let w' := if port = 0 then some (c.core_id, i.dest) else none
      let screen' :=
        if port = 12 then
          setPixel c.screen ((ports'.getD 11 0) % 32).toNat ((ports'.getD 10 0) % 32).toNat
        else c.screen
      let screen'' := if port = 13 then emptyScreen else screen'
      .ok { c with ports := ports', screen := screen'',
                   pipeline := { c.pipeline with W := w' } }
    else if i.op = "JMP" then
      .ok { c with pc := v2, pipeline := { c.pipeline with F := none, D := none } }
    else if i.op = "BEQ" then do
      let d ← c.resolve i.dest
      if d = v1 then
        .ok { c with pc := v2, pipeline := { c.pipeline with F := none, D := none } }
      else .ok c
    else do
      let r ← ALU.execute i.op v1 v2
      .ok { c with pipeline := { c.pipeline with W := some (r, i.dest) } }

/-- Step 2 of `tick` (lines 78-97): `self.pipeline["W"] = None`, then the
Execute-stage dispatch of `executeInner`. -/
def executeStep (c0 : ModularCPU) : Except Unit ModularCPU :=
  executeInner (clearW c0)

/-- Step 3 of `tick` (lines 100-101): `E := D; D := F`. -/
def moveStep (c : ModularCPU) : ModularCPU :=
  { c with pipeline := { c.pipeline with E := c.pipeline.D, D := c.pipeline.F } }

/-- Step 4 of `tick` (lines 104-108): when `pc < len(rom)` the entry
`rom[pc]` is read (Python indexing, so a negative `pc` counts from the
end and may raise); a truthy entry is loaded into Fetch and PC is
incremented, otherwise Fetch becomes empty. -/
def fetchStep (c : ModularCPU) : Except Unit ModularCPU :=
  if c.pc < (c.rom.length : Int) then do
    let entry ← pyIdx c.rom c.pc
    match entry with
    | some i =>
      .ok { c with pipeline := { c.pipeline with F := some i }, pc := c.pc + 1 }
    | none => .ok { c with pipeline := { c.pipeline with F := none } }
  else
    .ok { c with pipeline := { c.pipeline with F := none } }

/-- `ModularCPU.tick` (lines 70-108): writeback, execute, pipeline move,
fetch, in that order. -/
def tick (c : ModularCPU) : Except Unit ModularCPU := do
  let c1 ← writebackStep c
  let c2 ← executeStep c1
  fetchStep (moveStep c2)

/-- `n` consecutive calls to `tick`; an exception aborts the run. -/
def ticks (c : ModularCPU) (n : Nat) : Except Unit ModularCPU :=
  match n with
  | 0 => .ok c
  | n + 1 => do
    let c' ← tick c
    ticks c' n

/-! ### Forwarding-free variants (for the claim about the dead forwarding branch)

`resolveNoFwd` is `resolve` with the forwarding branch (lines 65-66 of the
source) deleted; `executeStepNoFwd`/`tickNoFwd` are `executeStep`/`tick`
with every internal `resolve` call replaced by `resolveNoFwd`. -/

/-- `resolve` without its forwarding branch: a register operand is always
read from the committed register file. -/
def resolveNoFwd (c : ModularCPU) (op : Operand) : Except Unit Int :=
  match op with
  | .reg k => regRead c.regs k
  | .lit n => .ok n
  | .null => .ok 0

/-- `executeInner` with `resolve` replaced by `resolveNoFwd`. -/
def executeInnerNoFwd (c : ModularCPU) : Except Unit ModularCPU :=
  match c.pipeline.E with
  | none => .ok c
  | some i => do
    let v1 ← resolveNoFwd c i.arg1
    let v2 ← resolveNoFwd c i.arg2
    if i.op = "OUT" then do
      let port ← resolveNoFwd c i.dest
      let ports' := c.ports.set (port % 256).toNat v1
      let w' := if port = 0 then some (c.core_id, i.dest) else none
      let screen' :=
        if port = 12 then
          setPixel c.screen ((ports'.getD 11 0) % 32).toNat ((ports'.getD 10 0) % 32).toNat
        else c.screen
      let screen'' := if port = 13 then emptyScreen else screen'
      .ok { c with ports := ports', screen := screen'',
                   pipeline := { c.pipeline with W := w' } }
    else if i.op = "JMP" then
      .ok { c with pc := v2, pipeline := { c.pipeline with F := none, D := none } }
    else if i.op = "BEQ" then do
      let d ← resolveNoFwd c i.dest
      if d = v1 then
        .ok { c with pc := v2, pipeline := { c.pipeline with F := none, D := none } }
      else .ok c
    else do
      let r ← ALU.execute i.op v1 v2
      .ok { c with pipeline := { c.pipeline with W := some (r, i.dest) } }

/-- `executeStep` with every internal `resolve` replaced by
`resolveNoFwd`. -/
def executeStepNoFwd (c0 : ModularCPU) : Except Unit ModularCPU :=
  executeInnerNoFwd (clearW c0)

/-- `tick` with `executeStep` replaced by `executeStepNoFwd`. -/
def tickNoFwd (c : ModularCPU) : Except Unit ModularCPU := do
  let c1 ← writebackStep c
  let c2 ← executeStepNoFwd c1
  fetchStep (moveStep c2)

/-! ### Well-formedness predicates (the caller contract of spec §7, and
byte-range side conditions used for the register/port invariant) -/

/-- The §7 caller contract restricted to byte literals: an operand is a
valid register index 0-7, an integer literal in `[0,255]`, or absent. -/
def GoodOperand (o : Operand) : Prop :=
  match o with
  | .reg k => k < 8
  | .lit n => 0 ≤ n ∧ n ≤ 255
  | .null => True

instance (o : Operand) : Decidable (GoodOperand o) :=
  match o with
  | .reg k => inferInstanceAs (Decidable (k < 8))
  | .lit n => inferInstanceAs (Decidable (0 ≤ n ∧ n ≤ 255))
  | .null => inferInstanceAs (Decidable True)

/-- All four operand fields of an instruction satisfy `GoodOperand`. -/
def GoodInstr (i : Instr) : Prop :=
  GoodOperand i.dest ∧ GoodOperand i.arg1 ∧ GoodOperand i.arg2

instance (i : Instr) : Decidable (GoodInstr i) :=
  inferInstanceAs (Decidable (_ ∧ _ ∧ _))

/-- A program / pipeline-slot entry is empty or a good instruction. -/
def GoodEntry (e : Option Instr) : Prop :=
  match e with
  | some i => GoodInstr i
  | none => True

instance (e : Option Instr) : Decidable (GoodEntry e) :=
  match e with
  | some i => inferInstanceAs (Decidable (GoodInstr i))
  | none => inferInstanceAs (Decidable True)

/-- Every entry of the program is empty or a good instruction. -/
def GoodProg (rom : List (Option Instr)) : Prop :=
  ∀ e ∈ rom, GoodEntry e

instance (rom : List (Option Instr)) : Decidable (GoodProg rom) :=
  List.decidableBAll _ rom

/-- Every value of the list is an unsigned byte. -/
def ByteVals (l : List Int) : Prop :=
  ∀ v ∈ l, 0 ≤ v ∧ v ≤ 255

instance (l : List Int) : Decidable (ByteVals l) :=
  List.decidableBAll _ l

/-- A pending writeback payload (if any) carries a byte value. -/
def WByte (w : Option (Int × Operand)) : Prop :=
  match w with
  | some p => 0 ≤ p.1 ∧ p.1 ≤ 255
  | none => True

instance (w : Option (Int × Operand)) : Decidable (WByte w) :=
  match w with
  | some p => inferInstanceAs (Decidable (0 ≤ p.1 ∧ p.1 ≤ 255))
  | none => inferInstanceAs (Decidable True)

/-- A pipeline-slot entry holds no control-flow instruction. -/
def NoCtl (e : Option Instr) : Prop :=
  match e with
  | some i => i.op ≠ "JMP" ∧ i.op ≠ "BEQ"
  | none => True

instance (e : Option Instr) : Decidable (NoCtl e) :=
  match e with
  | some _ => inferInstanceAs (Decidable (_ ∧ _))
  | none => inferInstanceAs (Decidable True)

/-- The program contains no `JMP`/`BEQ` instruction. -/
def NoCtlProg (rom : List (Option Instr)) : Prop :=
  ∀ e ∈ rom, NoCtl e

instance (rom : List (Option Instr)) : Decidable (NoCtlProg rom) :=
  List.decidableBAll _ rom

/-- Inductive byte/wellformedness invariant carried through `tick`:
the register file is 8 byte values, the port bank is 256 byte values,
any pending writeback payload carries a byte, every pipeline slot and
program entry is well-formed, and the core identifier is a byte. -/
def Inv (c : ModularCPU) : Prop :=
  c.regs.length = 8 ∧ ByteVals c.regs ∧
  c.ports.length = 256 ∧ ByteVals c.ports ∧
  WByte c.pipeline.W ∧
  GoodEntry c.pipeline.F ∧ GoodEntry c.pipeline.D ∧ GoodEntry c.pipeline.E ∧
  GoodProg c.rom ∧
  0 ≤ c.core_id ∧ c.core_id ≤ 255

instance (c : ModularCPU) : Decidable (Inv c) := by
  unfold Inv; infer_instance

/-- A pending writeback payload (if any) targets a well-formed operand
(in particular a register index below 8), so that committing it cannot
fault. -/
def WTarget (w : Option (Int × Operand)) : Prop :=
  match w with
  | some p => GoodOperand p.2
  | none => True

instance (w : Option (Int × Operand)) : Decidable (WTarget w) :=
  match w with
  | some p => inferInstanceAs (Decidable (GoodOperand p.2))
  | none => inferInstanceAs (Decidable True)

/-- A halted-fetch state about to drain: the invariant holds, the Fetch
slot is empty, PC is at/past the end of the program, no in-flight
instruction is a control-flow instruction, and the pending payload (if
any) has a committable target. -/
def DrainReady (c : ModularCPU) : Prop :=
  Inv c ∧ c.pipeline.F = none ∧ (c.rom.length : Int) ≤ c.pc ∧
  NoCtl c.pipeline.D ∧ NoCtl c.pipeline.E ∧ WTarget c.pipeline.W

instance (c : ModularCPU) : Decidable (DrainReady c) := by
  unfold DrainReady; infer_instance

/-! ### Observers and the §4.2 table as the spec words it -/

/-- Framebuffer pixel at row `r`, column `col` (0 when out of range). -/
def pix (c : ModularCPU) (r col : Nat) : Int :=
  (c.screen.getD r []).getD col 0

/-- The ALU result table exactly as §4.2 of the spec words it (a byte for
byte operands; "any other opcode reaching the ALU" gives 0). -/
def aluSpecTable (op : String) (v1 v2 : Int) : Int :=
  if op = "ADD" then (v1 + v2) % 256
  else if op = "SUB" then (v1 - v2) % 256
  else if op = "MUL" then (v1 * v2) % 256
  else if op = "AND" then Int.land v1 v2
  else if op = "OR" then Int.lor v1 v2
  else if op = "XOR" then Int.xor v1 v2
  else if op = "BSL" then (v1 * 2 ^ v2.toNat) % 256
  else 0

/-! ### Concrete programs used by the claims -/

/-- The §8 forwarding test program `[(ADD, R0, 5, 0), (ADD, R1, R0, 1)]`. -/
def prog1 : List (Option Instr) :=
  [some ⟨"ADD", .reg 0, .lit 5, .lit 0⟩, some ⟨"ADD", .reg 1, .reg 0, .lit 1⟩]

/-- `[(OUT, 256, 1, 0)]`: a `dest` that resolves to 256. -/
def prog256 : List (Option Instr) := [some ⟨"OUT", .lit 256, .lit 1, .lit 0⟩]

/-- `[(OUT,10,5,0), (OUT,11,7,0), (OUT,12,1,0), (OUT,13,0,0)]`:
the §8 port-mapped I/O test followed by a screen clear. -/
def progDraw : List (Option Instr) :=
  [some ⟨"OUT", .lit 10, .lit 5, .lit 0⟩, some ⟨"OUT", .lit 11, .lit 7, .lit 0⟩,
   some ⟨"OUT", .lit 12, .lit 1, .lit 0⟩, some ⟨"OUT", .lit 13, .lit 0, .lit 0⟩]

/-- `[(JMP, 0, 0, -5)]`: jumps to PC `-5` in a length-1 program. -/
def progJmpNeg5 : List (Option Instr) := [some ⟨"JMP", .lit 0, .lit 0, .lit (-5)⟩]

/-- `[(JMP, 0, 0, -1)]`: jumps to PC `-1` in a length-1 program. -/
def progJmpM1 : List (Option Instr) := [some ⟨"JMP", .lit 0, .lit 0, .lit (-1)⟩]

/-- A no-operation-like filler instruction `(ADD, R0, 0, 0)`. -/
def addNop : Option Instr := some ⟨"ADD", .reg 0, .lit 0, .lit 0⟩

/-- `(JMP, 0, 0, 10)` followed by ten filler instructions, so that
address 10 is inside the program when the jump executes. -/
def prog11 : List (Option Instr) :=
  some ⟨"JMP", .lit 0, .lit 0, .lit 10⟩ :: List.replicate 10 addNop

/-- `[(JMP, 0, 0, 0)]`: runs off the end, then jumps back to 0. -/
def progLoop : List (Option Instr) := [some ⟨"JMP", .lit 0, .lit 0, .lit 0⟩]

/-- `[(OR, R0, 300, 0)]`: an integer-literal operand above 255. -/
def progOr : List (Option Instr) := [some ⟨"OR", .reg 0, .lit 300, .lit 0⟩]

/-- `[(OUT, 0, 300, 0)]`: stores the literal 300 into port 0. -/
def progOutBig : List (Option Instr) := [some ⟨"OUT", .lit 0, .lit 300, .lit 0⟩]

/-! ## General lemmas -/

theorem bindOk {ε α β : Type} (a : α) (f : α → Except ε β) :
    (Except.ok a >>= f) = f a := rfl

theorem bindErr {ε α β : Type} (e : ε) (f : α → Except ε β) :
    (Except.error e >>= f) = Except.error e := rfl

/-- A successful `tick` decomposes into its four sub-steps. -/
theorem tick_ok_iff (c c' : ModularCPU) :
    tick c = .ok c' ↔ ∃ c1 c2, writebackStep c = .ok c1 ∧ executeStep c1 = .ok c2 ∧
      fetchStep (moveStep c2) = .ok c' := by
  unfold tick
  cases hw : writebackStep c with
  | error e => simp [bindErr]
  | ok c1 =>
    rw [bindOk]
    cases he : executeStep c1 with
    | error e =>
      simp only [bindErr]
      constructor
      · intro h; cases h
      · rintro ⟨x, y, hx, hy, -⟩
        obtain rfl : c1 = x := by injection hx
        rw [he] at hy; cases hy
    | ok c2 =>
      rw [bindOk]
      constructor
      · intro h; exact ⟨c1, c2, rfl, he, h⟩
      · rintro ⟨x, y, hx, hy, hf⟩
        obtain rfl : c1 = x := by injection hx
        obtain rfl : c2 = y := by injection he.symm.trans hy
        exact hf

theorem emod256_byte (a : Int) : 0 ≤ a % 256 ∧ a % 256 ≤ 255 := by
  have h1 := Int.emod_nonneg a (show (256 : Int) ≠ 0 by norm_num)
  have h2 := Int.emod_lt_of_pos a (show (0 : Int) < 256 by norm_num)
  omega

theorem emod32_byte (a : Int) : 0 ≤ a % 32 ∧ a % 32 ≤ 31 := by
  have h1 := Int.emod_nonneg a (show (32 : Int) ≠ 0 by norm_num)
  have h2 := Int.emod_lt_of_pos a (show (0 : Int) < 32 by norm_num)
  omega

theorem land_byte {v1 v2 : Int} (h1 : 0 ≤ v1 ∧ v1 ≤ 255) (h2 : 0 ≤ v2 ∧ v2 ≤ 255) :
    0 ≤ Int.land v1 v2 ∧ Int.land v1 v2 ≤ 255 := by
  obtain ⟨a, rfl⟩ : ∃ a : Nat, v1 = (a : Int) := ⟨v1.toNat, (Int.toNat_of_nonneg h1.1).symm⟩
  obtain ⟨b, rfl⟩ : ∃ b : Nat, v2 = (b : Int) := ⟨v2.toNat, (Int.toNat_of_nonneg h2.1).symm⟩
  have ha : a < 2 ^ 8 := by have : a ≤ 255 := by exact_mod_cast h1.2
                            norm_num; omega
  have hb : b < 2 ^ 8 := by have : b ≤ 255 := by exact_mod_cast h2.2
                            norm_num; omega
  have h : a &&& b < 2 ^ 8 := Nat.bitwise_lt ha hb
  rw [show Int.land (a : Int) (b : Int) = ((a &&& b : Nat) : Int) from rfl]
  constructor
  · exact Int.natCast_nonneg _
  · exact_mod_cast Nat.lt_succ_iff.mp (by norm_num at h; omega)

theorem lor_byte {v1 v2 : Int} (h1 : 0 ≤ v1 ∧ v1 ≤ 255) (h2 : 0 ≤ v2 ∧ v2 ≤ 255) :
    0 ≤ Int.lor v1 v2 ∧ Int.lor v1 v2 ≤ 255 := by
  obtain ⟨a, rfl⟩ : ∃ a : Nat, v1 = (a : Int) := ⟨v1.toNat, (Int.toNat_of_nonneg h1.1).symm⟩
  obtain ⟨b, rfl⟩ : ∃ b : Nat, v2 = (b : Int) := ⟨v2.toNat, (Int.toNat_of_nonneg h2.1).symm⟩
  have ha : a < 2 ^ 8 := by have : a ≤ 255 := by exact_mod_cast h1.2
                            norm_num; omega
  have hb : b < 2 ^ 8 := by have : b ≤ 255 := by exact_mod_cast h2.2
                            norm_num; omega
  have h : a ||| b < 2 ^ 8 := Nat.bitwise_lt ha hb
  rw [show Int.lor (a : Int) (b : Int) = ((a ||| b : Nat) : Int) from rfl]
  constructor
  · exact Int.natCast_nonneg _
  · exact_mod_cast Nat.lt_succ_iff.mp (by norm_num at h; omega)

theorem xor_byte {v1 v2 : Int} (h1 : 0 ≤ v1 ∧ v1 ≤ 255) (h2 : 0 ≤ v2 ∧ v2 ≤ 255) :
    0 ≤ Int.xor v1 v2 ∧ Int.xor v1 v2 ≤ 255 := by
  obtain ⟨a, rfl⟩ : ∃ a : Nat, v1 = (a : Int) := ⟨v1.toNat, (Int.toNat_of_nonneg h1.1).symm⟩
  obtain ⟨b, rfl⟩ : ∃ b : Nat, v2 = (b : Int) := ⟨v2.toNat, (Int.toNat_of_nonneg h2.1).symm⟩
  have ha : a < 2 ^ 8 := by have : a ≤ 255 := by exact_mod_cast h1.2
                            norm_num; omega
  have hb : b < 2 ^ 8 := by have : b ≤ 255 := by exact_mod_cast h2.2
                            norm_num; omega
  have h : a ^^^ b < 2 ^ 8 := Nat.bitwise_lt ha hb
  rw [show Int.xor (a : Int) (b : Int) = ((a ^^^ b : Nat) : Int) from rfl]
  constructor
  · exact Int.natCast_nonneg _
  · exact_mod_cast Nat.lt_succ_iff.mp (by norm_num at h; omega)

/-- On byte operands the ALU never raises, returns exactly the §4.2
table value, and that value is again a byte. -/
theorem execute_matches_table (op : String) {v1 v2 : Int}
    (h1 : 0 ≤ v1 ∧ v1 ≤ 255) (h2 : 0 ≤ v2 ∧ v2 ≤ 255) :
    ALU.execute op v1 v2 = .ok (aluSpecTable op v1 v2) ∧
    0 ≤ aluSpecTable op v1 v2 ∧ aluSpecTable op v1 v2 ≤ 255 := by
  unfold ALU.execute aluSpecTable
  split_ifs with hA hS hM hAnd hOr hX hB hNeg
  · exact ⟨rfl, emod256_byte _⟩
  · exact ⟨rfl, emod256_byte _⟩
  · exact ⟨rfl, emod256_byte _⟩
  · exact ⟨rfl, land_byte h1 h2⟩
  · exact ⟨rfl, lor_byte h1 h2⟩
  · exact ⟨rfl, xor_byte h1 h2⟩
  · omega
  · exact ⟨rfl, emod256_byte _⟩
  · exact ⟨rfl, by norm_num⟩

theorem bind_ok_elim {ε α β : Type} {m : Except ε α} {f : α → Except ε β} {b : β}
    (h : (m >>= f) = .ok b) : ∃ a, m = .ok a ∧ f a = .ok b := by
  cases m with
  | error e => rw [bindErr] at h; cases h
  | ok a => rw [bindOk] at h; exact ⟨a, rfl, h⟩

theorem pyIdx_mem {rom : List (Option Instr)} {i : Int} {e : Option Instr}
    (h : pyIdx rom i = .ok e) : e ∈ rom := by
  unfold pyIdx at h
  split at h
  · split at h
    · injection h with h; rw [← h]; exact List.get_mem _ _ _
    · cases h
  · split at h
    · injection h with h; rw [← h]; exact List.get_mem _ _ _
    · cases h

theorem ticks_add (c : ModularCPU) (m n : Nat) :
    ticks c (m + n) = (ticks c m) >>= fun c' => ticks c' n := by
  induction m generalizing c with
  | zero => simp [ticks, bindOk]
  | succ k ih =>
    have hkn : k + 1 + n = (k + n) + 1 := by omega
    rw [hkn]
    show (do
      let c' ← tick c
      ticks c' (k + n)) = (do
      let c' ← (do
        let c'' ← tick c
        ticks c'' k)
      ticks c' n)
    cases ht : tick c with
    | error e => simp [bindErr]
    | ok c1 => simp only [bindOk, ih c1]

/-! ## Step-level elimination lemmas -/


theorem executeInner_ok_cases {c c' : ModularCPU} (h : executeInner c = .ok c') :
    (c.pipeline.E = none ∧ c' = c) ∨
    (∃ i v1 v2, c.pipeline.E = some i ∧
      c.resolve i.arg1 = .ok v1 ∧ c.resolve i.arg2 = .ok v2 ∧
      ((i.op = "OUT" ∧ ∃ port, c.resolve i.dest = .ok port ∧
          c' = { c with
                 ports := c.ports.set (port % 256).toNat v1,
                 screen := if port = 13 then emptyScreen
                   else if port = 12 then
                     setPixel c.screen
                       (((c.ports.set (port % 256).toNat v1).getD 11 0 % 32).toNat)
                       (((c.ports.set (port % 256).toNat v1).getD 10 0 % 32).toNat)
                   else c.screen,
                 pipeline := { c.pipeline with
                               W := if port = 0 then some (c.core_id, i.dest) else none } }) ∨
       (i.op ≠ "OUT" ∧ i.op = "JMP" ∧
          c' = { c with
                 pc := v2,
                 pipeline := { c.pipeline with F := none, D := none } }) ∨
       (i.op ≠ "OUT" ∧ i.op ≠ "JMP" ∧ i.op = "BEQ" ∧
          ∃ d, c.resolve i.dest = .ok d ∧
            ((d = v1 ∧ c' = { c with
                              pc := v2,
                              pipeline := { c.pipeline with F := none, D := none } }) ∨
             (d ≠ v1 ∧ c' = c))) ∨
       (i.op ≠ "OUT" ∧ i.op ≠ "JMP" ∧ i.op ≠ "BEQ" ∧
          ∃ r, ALU.execute i.op v1 v2 = .ok r ∧
            c' = { c with pipeline := { c.pipeline with W := some (r, i.dest) } }))) := by
  unfold executeInner at h
  cases hE : c.pipeline.E with
  | none =>
    rw [hE] at h
    injection h with h
    exact Or.inl ⟨rfl, h.symm⟩
  | some i =>
    rw [hE] at h
    obtain ⟨v1, hv1, h⟩ := bind_ok_elim h
    obtain ⟨v2, hv2, h⟩ := bind_ok_elim h
    refine Or.inr ⟨i, v1, v2, rfl, hv1, hv2, ?_⟩
    by_cases hOUT : i.op = "OUT"
    · rw [if_pos hOUT] at h
      obtain ⟨port, hp, h⟩ := bind_ok_elim h
      injection h with h
      exact Or.inl ⟨hOUT, port, hp, h.symm⟩
    · rw [if_neg hOUT] at h
      by_cases hJMP : i.op = "JMP"
      · rw [if_pos hJMP] at h
        injection h with h
        exact Or.inr (Or.inl ⟨hOUT, hJMP, h.symm⟩)
      · rw [if_neg hJMP] at h
        by_cases hBEQ : i.op = "BEQ"
        · rw [if_pos hBEQ] at h
          obtain ⟨d, hd, h⟩ := bind_ok_elim h
          by_cases hdv : d = v1
          · rw [if_pos hdv] at h
            injection h with h
            exact Or.inr (Or.inr (Or.inl ⟨hOUT, hJMP, hBEQ, d, hd, Or.inl ⟨hdv, h.symm⟩⟩))
          · rw [if_neg hdv] at h
            injection h with h
            exact Or.inr (Or.inr (Or.inl ⟨hOUT, hJMP, hBEQ, d, hd, Or.inr ⟨hdv, h.symm⟩⟩))
        · rw [if_neg hBEQ] at h
          obtain ⟨r, hr, h⟩ := bind_ok_elim h
          injection h with h
          exact Or.inr (Or.inr (Or.inr ⟨hOUT, hJMP, hBEQ, r, hr, h.symm⟩))



theorem writebackStep_ok_cases {c c' : ModularCPU} (h : writebackStep c = .ok c') :
    (c' = c ∧ (c.pipeline.W = none ∨ ∃ v t, c.pipeline.W = some (v, t) ∧ ∀ k, t ≠ .reg k)) ∨
    (∃ v k, c.pipeline.W = some (v, .reg k) ∧ k < c.regs.length ∧
      c' = { c with regs := c.regs.set k v }) := by
  unfold writebackStep at h
  cases hW : c.pipeline.W with
  | none =>
    rw [hW] at h; injection h with h
    exact Or.inl ⟨h.symm, Or.inl rfl⟩
  | some p =>
    obtain ⟨v, t⟩ := p
    rw [hW] at h
    cases t with
    | reg k =>
      obtain ⟨regs', hrw, h⟩ := bind_ok_elim h
      unfold regWrite at hrw
      split at hrw
      · injection hrw with hrw
        injection h with h
        refine Or.inr ⟨v, k, rfl, by assumption, ?_⟩
        rw [← h, ← hrw]
      · cases hrw
    | lit n =>
      injection h with h
      exact Or.inl ⟨h.symm, Or.inr ⟨v, .lit n, rfl, fun k hk => by cases hk⟩⟩
    | null =>
      injection h with h
      exact Or.inl ⟨h.symm, Or.inr ⟨v, .null, rfl, fun k hk => by cases hk⟩⟩

theorem fetchStep_ok_cases {c c' : ModularCPU} (h : fetchStep c = .ok c') :
    ((c.rom.length : Int) ≤ c.pc ∧
      c' = { c with pipeline := { c.pipeline with F := none } }) ∨
    (c.pc < (c.rom.length : Int) ∧ ∃ e, pyIdx c.rom c.pc = .ok e ∧
      ((e = none ∧ c' = { c with pipeline := { c.pipeline with F := none } }) ∨
       (∃ i, e = some i ∧
         c' = { c with
                pc := c.pc + 1,
                pipeline := { c.pipeline with F := some i } }))) := by
  unfold fetchStep at h
  by_cases hpc : c.pc < (c.rom.length : Int)
  · rw [if_pos hpc] at h
    obtain ⟨e, he, h⟩ := bind_ok_elim h
    cases e with
    | none =>
      injection h with h
      exact Or.inr ⟨hpc, none, he, Or.inl ⟨rfl, h.symm⟩⟩
    | some i =>
      injection h with h
      exact Or.inr ⟨hpc, some i, he, Or.inr ⟨i, rfl, h.symm⟩⟩
  · rw [if_neg hpc] at h
    injection h with h
    exact Or.inl ⟨by omega, h.symm⟩


/-! ## Claim theorems -/

/-- Claim C1, counterexample: on the program
`[(ADD, R0, 5, 0), (ADD, R1, R0, 1)]` it is NOT the case that register
R1 equals 6 after exactly 4 ticks (it is still 0 there: the first ADD
has only just executed and its result is still in the pending
writeback payload). -/
theorem C1_counterexample :
    ¬ (∀ c, ticks (ModularCPU.init prog1) 4 = Except.ok c → c.regs.getD 1 0 = 6) :=
  fun h => absurd (h _ rfl) (by decide)

/-- Claim C1, amended: on the program `[(ADD, R0, 5, 0), (ADD, R1, R0, 1)]`
register R1 equals 6 (and R0 equals 5) after exactly 6 ticks, and at
4 ticks both are still uncommitted (R0 = 0, R1 = 0).  The second
instruction's Execute-stage read of R0 (in tick 5) sees the value 5
because the first instruction's Writeback committed it earlier in that
same tick, before the payload slot was cleared and the operands were
resolved. -/
theorem C1_amended_six_ticks :
    (∃ c, ticks (ModularCPU.init prog1) 4 = Except.ok c ∧
      c.regs.getD 0 0 = 0 ∧ c.regs.getD 1 0 = 0 ∧
      c.pipeline.W = some (5, Operand.reg 0)) ∧
    (∃ c, ticks (ModularCPU.init prog1) 6 = Except.ok c ∧
      c.regs.getD 1 0 = 6 ∧ c.regs.getD 0 0 = 5) :=
  ⟨⟨_, rfl, rfl, rfl, rfl⟩, ⟨_, rfl, rfl, rfl⟩⟩

/-- Claim C3: the program `[(JMP, 0, 0, -5)]` satisfies the §7 operand
precondition (every operand is a register reference or an integer
literal), runs fine for 3 ticks — at which point the jump sits in the
Execute slot — and then the 4th tick raises: the jump sets PC to -5 and
the fetch stage evaluates `rom[-5]` on a length-1 program, an
`IndexError`.  `tick` is therefore not exception-free. -/
theorem C3_tick_raises :
    (∃ c, ticks (ModularCPU.init progJmpNeg5) 3 = Except.ok c ∧
      c.pipeline.E = some ⟨"JMP", .lit 0, .lit 0, .lit (-5)⟩ ∧ c.pc = 1) ∧
    ticks (ModularCPU.init progJmpNeg5) 4 = Except.error () :=
  ⟨⟨_, rfl, rfl, rfl⟩, rfl⟩

/-- Claim C4: on the program `[(JMP, 0, 0, -1)]` the 4th tick executes
the jump, setting PC to -1 — outside the program bounds — yet the same
tick's fetch stage loads `rom[-1]`, i.e. the program's last instruction
(Python's negative indexing), into the Fetch slot and increments PC to
0.  A fetch does occur at a negative PC, contradicting the claim that
the Fetch slot becomes empty for every PC outside the program bounds. -/
theorem C4_fetch_at_negative_pc :
    ∃ c, ticks (ModularCPU.init progJmpM1) 4 = Except.ok c ∧
      c.pc = 0 ∧ c.pipeline.F = some ⟨"JMP", .lit 0, .lit 0, .lit (-1)⟩ :=
  ⟨_, rfl, rfl, rfl⟩

/-- Claim C5: for every opcode string and byte operands, `ALU.execute`
never raises, returns exactly the §4.2 table value (`aluSpecTable`),
that value is again a byte, the documented examples
`execute "SUB" 0 1 = 255` and `execute "MUL" 200 200 = 64` hold, and
any opcode outside the seven defined ones yields the fallback 0. -/
theorem C5_alu_matches_table (op : String) (v1 v2 : Int)
    (h1 : 0 ≤ v1 ∧ v1 ≤ 255) (h2 : 0 ≤ v2 ∧ v2 ≤ 255) :
    ALU.execute op v1 v2 = .ok (aluSpecTable op v1 v2) ∧
    (0 ≤ aluSpecTable op v1 v2 ∧ aluSpecTable op v1 v2 ≤ 255) ∧
    ALU.execute "SUB" 0 1 = .ok 255 ∧
    ALU.execute "MUL" 200 200 = .ok 64 ∧
    (op ≠ "ADD" ∧ op ≠ "SUB" ∧ op ≠ "MUL" ∧ op ≠ "AND" ∧ op ≠ "OR" ∧
      op ≠ "XOR" ∧ op ≠ "BSL" → ALU.execute op v1 v2 = .ok 0) := by
  obtain ⟨he, hr⟩ := execute_matches_table op h1 h2
  refine ⟨he, hr, rfl, rfl, ?_⟩
  rintro ⟨n1, n2, n3, n4, n5, n6, n7⟩
  unfold ALU.execute
  rw [if_neg n1, if_neg n2, if_neg n3, if_neg n4, if_neg n5, if_neg n6, if_neg n7]

/-- Witness for C5 at the concrete input `("BSL", 3, 5)`. -/
theorem C5_alu_matches_table_witness :
    ALU.execute "BSL" 3 5 = .ok (aluSpecTable "BSL" 3 5) ∧
    (0 ≤ aluSpecTable "BSL" 3 5 ∧ aluSpecTable "BSL" 3 5 ≤ 255) ∧
    ALU.execute "SUB" 0 1 = .ok 255 ∧
    ALU.execute "MUL" 200 200 = .ok 64 ∧
    ("BSL" ≠ "ADD" ∧ "BSL" ≠ "SUB" ∧ "BSL" ≠ "MUL" ∧ "BSL" ≠ "AND" ∧
      "BSL" ≠ "OR" ∧ "BSL" ≠ "XOR" ∧ "BSL" ≠ "BSL" →
      ALU.execute "BSL" 3 5 = .ok 0) :=
  C5_alu_matches_table "BSL" 3 5 (by norm_num) (by norm_num)

/-- Claim C10: a successful `tick` never touches the 256-cell RAM
(`Memory(256)`), and hence from construction every RAM cell stays 0
after any number of ticks. -/
theorem C10_ram_untouched :
    (∀ c c', tick c = Except.ok c' → c'.ram = c.ram) ∧
    (∀ rom n c', ticks (ModularCPU.init rom) n = Except.ok c' →
      c'.ram = List.replicate 256 0) := by
  have h1 : ∀ c c', tick c = Except.ok c' → c'.ram = c.ram := by
    intro c c' h
    obtain ⟨c1, c2, hw, he, hf⟩ := (tick_ok_iff c c').mp h
    have e1 : c1.ram = c.ram := by
      rcases writebackStep_ok_cases hw with ⟨rfl, -⟩ | ⟨v, k, -, -, rfl⟩ <;> rfl
    have e2 : c2.ram = c1.ram := by
      rcases executeInner_ok_cases he with ⟨-, rfl⟩ | ⟨i, v1, v2, -, -, -, hbr⟩
      · rfl
      · rcases hbr with ⟨-, port, -, rfl⟩ | ⟨-, -, rfl⟩ |
          ⟨-, -, -, d, -, ⟨-, rfl⟩ | ⟨-, rfl⟩⟩ | ⟨-, -, -, r, -, rfl⟩ <;> rfl
    have e3 : c'.ram = c2.ram := by
      rcases fetchStep_ok_cases hf with ⟨-, rfl⟩ | ⟨-, e, -, ⟨-, rfl⟩ | ⟨i, -, rfl⟩⟩ <;> rfl
    rw [e3, e2, e1]
  refine ⟨h1, ?_⟩
  intro rom n
  induction n with
  | zero => intro c' h; injection h with h; rw [← h]; rfl
  | succ k ih =>
    intro c' h
    rw [ticks_add (ModularCPU.init rom) k 1] at h
    obtain ⟨c1, hc1, h⟩ := bind_ok_elim h
    unfold ticks at h
    obtain ⟨c2, ht, h⟩ := bind_ok_elim h
    injection h with h
    obtain rfl : c2 = c' := h
    exact (h1 c1 c2 ht).trans (ih c1 hc1)

/-- Witness for C10 at the concrete program `prog1` after 6 ticks. -/
theorem C10_ram_untouched_witness :
    ∃ c, ticks (ModularCPU.init prog1) 6 = Except.ok c ∧
      c.ram = List.replicate 256 0 :=
  ⟨_, rfl, C10_ram_untouched.2 prog1 6 _ rfl⟩


/-! ## Pixel/fetch helper lemmas and C2/C6/C9 developments -/


theorem getD_set_self (l : List Int) (i : Nat) (a d : Int) (h : i < l.length) :
    (l.set i a).getD i d = a := by
  have h' : i < (l.set i a).length := by simpa using h
  rw [List.getD_eq_getElem (l.set i a) d h']
  exact List.getElem_set_self (by simpa using h)

theorem pix_setPixel (s : List (List Int)) (r col : Nat)
    (hr : r < s.length) (hcol : col < (s.getD r []).length) :
    ((setPixel s r col).getD r []).getD col 0 = 1 := by
  unfold setPixel
  have hr' : r < (s.set r ((s.getD r []).set col 1)).length := by simpa using hr
  rw [List.getD_eq_getElem (s.set r ((s.getD r []).set col 1)) [] hr',
      List.getElem_set_self (by simpa using hr)]
  exact getD_set_self _ _ _ _ hcol

theorem emptyScreen_pix (r col : Nat) : (emptyScreen.getD r []).getD col 0 = 0 := by
  unfold emptyScreen
  by_cases hr : r < 32
  · rw [List.getD_eq_getElem (List.replicate 32 (List.replicate 32 (0:Int))) []
        (by simpa using hr), List.getElem_replicate]
    by_cases hcol : col < 32
    · rw [List.getD_eq_getElem (List.replicate 32 (0:Int)) 0 (by simpa using hcol),
          List.getElem_replicate]
    · rw [List.getD_eq_default (List.replicate 32 (0:Int)) 0 (by simpa using not_lt.mp hcol)]
  · rw [List.getD_eq_default (List.replicate 32 (List.replicate 32 (0:Int))) []
        (by simpa using not_lt.mp hr)]
    simp

theorem C2_out_semantics (c : ModularCPU) (i : Instr) (p v1 v2 : Int)
    (hop : i.op = "OUT") (hE : c.pipeline.E = some i)
    (hv1 : (clearW c).resolve i.arg1 = .ok v1)
    (hv2 : (clearW c).resolve i.arg2 = .ok v2)
    (hp : (clearW c).resolve i.dest = .ok p)
    (hports : c.ports.length = 256)
    (hscr1 : c.screen.length = 32) (hscr2 : ∀ row ∈ c.screen, row.length = 32) :
    (∃ c', executeStep c = .ok c' ∧
      c'.ports = c.ports.set (p % 256).toNat v1 ∧
      c'.ports.getD (p % 256).toNat 0 = v1 ∧
      c'.pipeline.W = (if p = 0 then some (c.core_id, i.dest) else none) ∧
      (p = 12 → pix c' (((c'.ports.getD 11 0) % 32).toNat)
        (((c'.ports.getD 10 0) % 32).toNat) = 1) ∧
      (p = 13 → ∀ r col, pix c' r col = 0)) ∧
    (∃ cD, ticks (ModularCPU.init progDraw) 6 = .ok cD ∧ pix cD 7 5 = 1) ∧
    (∃ cC, ticks (ModularCPU.init progDraw) 7 = .ok cC ∧ ∀ r col, pix cC r col = 0) ∧
    (∃ cx, ticks (ModularCPU.init prog256) 4 = .ok cx ∧
      cx.ports.getD 0 0 = 1 ∧ cx.pipeline.W = none) := by
  refine ⟨?_, ⟨_, rfl, rfl⟩, ?_, ⟨_, rfl, rfl, rfl⟩⟩
  · have hex : executeStep c = Except.ok
        { c with
          ports := c.ports.set (p % 256).toNat v1,
          screen := (if p = 13 then emptyScreen
            else if p = 12 then
              setPixel c.screen
                (((c.ports.set (p % 256).toNat v1).getD 11 0 % 32).toNat)
                (((c.ports.set (p % 256).toNat v1).getD 10 0 % 32).toNat)
            else c.screen),
          pipeline := { c.pipeline with
                        W := if p = 0 then some (c.core_id, i.dest) else none } } := by
      unfold executeStep executeInner
      rw [show (clearW c).pipeline.E = c.pipeline.E from rfl, hE]
      dsimp only
      rw [hv1, bindOk, hv2, bindOk, if_pos hop, hp, bindOk]
      rfl
    refine ⟨_, hex, rfl, ?_, rfl, ?_, ?_⟩
    · have hlt : (p % 256).toNat < c.ports.length := by
        have := emod256_byte p; omega
      exact getD_set_self _ _ _ _ hlt
    · intro h12
      subst h12
      unfold pix
      dsimp only
      rw [if_neg (show ¬((12:Int) = 13) by norm_num),
          if_pos (show (12:Int) = 12 from rfl)]
      have hR : ((c.ports.set ((12:Int) % 256).toNat v1).getD 11 0 % 32).toNat < c.screen.length := by
        have := emod32_byte ((c.ports.set ((12:Int) % 256).toNat v1).getD 11 0)
        omega
      have hrow : c.screen.getD (((c.ports.set ((12:Int) % 256).toNat v1).getD 11 0 % 32).toNat) [] ∈ c.screen := by
        rw [List.getD_eq_getElem c.screen [] hR]
        exact List.getElem_mem _
      have hC : ((c.ports.set ((12:Int) % 256).toNat v1).getD 10 0 % 32).toNat <
          (c.screen.getD (((c.ports.set ((12:Int) % 256).toNat v1).getD 11 0 % 32).toNat) []).length := by
        rw [hscr2 _ hrow]
        have := emod32_byte ((c.ports.set ((12:Int) % 256).toNat v1).getD 10 0)
        omega
      exact pix_setPixel c.screen _ _ hR hC
    · intro h13
      subst h13
      intro r col
      unfold pix
      dsimp only
      rw [if_pos (show (13:Int) = 13 from rfl)]
      exact emptyScreen_pix r col
  · have hclear : ∃ cC, ticks (ModularCPU.init progDraw) 7 = .ok cC ∧
        cC.screen = emptyScreen := ⟨_, rfl, rfl⟩
    obtain ⟨cC, h1, h2⟩ := hclear
    refine ⟨cC, h1, fun r col => ?_⟩
    unfold pix
    rw [h2]
    exact emptyScreen_pix r col



theorem pyIdx_nonneg {rom : List (Option Instr)} {i : Int}
    (h0 : 0 ≤ i) (hlt : i < (rom.length : Int)) :
    pyIdx rom i = .ok (rom.getD i.toNat none) := by
  unfold pyIdx
  rw [if_pos h0, dif_pos (show i.toNat < rom.length by omega)]
  rw [List.getD_eq_getElem rom none (by omega)]
  rfl

theorem C6_jmp_flush (c c' : ModularCPU)
    (hE : c.pipeline.E = some ⟨"JMP", .lit 0, .lit 0, .lit 10⟩)
    (ht : tick c = .ok c') :
    c'.pipeline.E = none ∧ c'.pipeline.D = none ∧
    c'.pipeline.F = c.rom.getD 10 none ∧
    c'.pc = (if (c.rom.getD 10 none).isSome then 11 else 10) := by
  obtain ⟨c1, c2, hw, hex, hf⟩ := (tick_ok_iff c c').mp ht
  have h1p : c1.pipeline = c.pipeline ∧ c1.rom = c.rom := by
    rcases writebackStep_ok_cases hw with ⟨rfl, -⟩ | ⟨v, k, -, -, rfl⟩ <;> exact ⟨rfl, rfl⟩
  have hE1 : c1.pipeline.E = some ⟨"JMP", .lit 0, .lit 0, .lit 10⟩ := by
    rw [h1p.1]; exact hE
  have hex' : executeStep c1 = Except.ok
      { c1 with
        pc := 10,
        pipeline := { c1.pipeline with F := none, D := none, W := none } } := by
    unfold executeStep executeInner
    rw [show (clearW c1).pipeline.E = c1.pipeline.E from rfl, hE1]
    dsimp only
    rw [show (clearW c1).resolve (Operand.lit 0) = Except.ok 0 from rfl, bindOk,
        show (clearW c1).resolve (Operand.lit 10) = Except.ok 10 from rfl, bindOk,
        if_neg (show ¬("JMP" = "OUT") by decide),
        if_pos (show "JMP" = "JMP" from rfl)]
    rfl
  obtain rfl : _ = c2 := by injection hex'.symm.trans hex
  rcases fetchStep_ok_cases hf with ⟨hge, rfl⟩ | ⟨hlt, e, he, hbr⟩
  · have hge' : (c1.rom.length : Int) ≤ 10 := by simpa [moveStep] using hge
    have hlen : c.rom.length ≤ 10 := by rw [← h1p.2]; omega
    have hgd : c.rom.getD 10 none = none := List.getD_eq_default c.rom none hlen
    refine ⟨rfl, rfl, ?_, ?_⟩
    · rw [hgd]
    · rw [hgd]
      rfl
  · have hlt' : (10 : Int) < (c.rom.length : Int) := by
      have := hlt
      simp only [moveStep] at this
      rw [← h1p.2]; exact this
    have he' : pyIdx c.rom 10 = .ok e := by
      have := he
      simp only [moveStep] at this
      rw [← h1p.2]; exact this
    have he2 : pyIdx c.rom 10 = .ok (c.rom.getD 10 none) :=
      pyIdx_nonneg (by norm_num) hlt'
    have he3 : e = c.rom.getD 10 none := by
      injection he'.symm.trans he2
    rcases hbr with ⟨hen, rfl⟩ | ⟨j, hj, rfl⟩
    · rw [hen] at he3
      refine ⟨rfl, rfl, ?_, ?_⟩
      · rw [← he3]
      · rw [← he3]
        rfl
    · rw [hj] at he3
      refine ⟨rfl, rfl, ?_, ?_⟩
      · rw [← he3]
      · rw [← he3]
        rfl



theorem resolve_of_W_none {c : ModularCPU} (h : c.pipeline.W = none) (op : Operand) :
    c.resolve op = resolveNoFwd c op := by
  cases op with
  | reg k =>
    unfold ModularCPU.resolve resolveNoFwd
    rw [h]
  | lit n => rfl
  | null => rfl

theorem executeInner_eq_noFwd {c : ModularCPU} (h : c.pipeline.W = none) :
    executeInner c = executeInnerNoFwd c := by
  unfold executeInner executeInnerNoFwd
  simp only [resolve_of_W_none h]

theorem executeStep_eq_noFwd (c : ModularCPU) :
    executeStep c = executeStepNoFwd c := by
  unfold executeStep executeStepNoFwd
  exact executeInner_eq_noFwd rfl

theorem tick_eq_noFwd (c : ModularCPU) : tick c = tickNoFwd c := by
  unfold tick tickNoFwd
  simp only [executeStep_eq_noFwd]



/-- Claim C2, counterexample: a dest resolving to 256 does NOT trigger
the port-0 readback, because the hardwired effects are keyed on the raw
resolved value (`port == 0`), not on the stored index `port % 256`: on
`[(OUT, 256, 1, 0)]` the tick that executes the OUT stores 1 into port
0 yet leaves the Writeback payload empty. -/
theorem C2_counterexample :
    ¬ (∀ c, ticks (ModularCPU.init prog256) 4 = Except.ok c →
        c.pipeline.W = some (c.core_id, Operand.lit 256)) :=
  fun h => absurd (h _ rfl) (by decide)

/-- Claim C2, amended: when the Execute slot holds `(OUT, dest, op1, op2)`
the tick stores the resolved `op1` into port `(resolved dest) mod 256`,
but the hardwired effects are keyed on the RAW resolved dest: raw 0 sets
the Writeback payload to (core identifier, dest); raw 12 sets the
framebuffer cell at row `ports[11] mod 32`, column `ports[10] mod 32`
(ports read after the store); raw 13 clears the framebuffer.  The §8
scenarios hold: the draw sequence sets framebuffer[7][5], the clear
empties every cell, and a dest resolving to 256 stores into port 0
without triggering the readback. -/
theorem C2_out_amended (c : ModularCPU) (i : Instr) (p v1 v2 : Int)
    (hop : i.op = "OUT") (hE : c.pipeline.E = some i)
    (hv1 : (clearW c).resolve i.arg1 = .ok v1)
    (hv2 : (clearW c).resolve i.arg2 = .ok v2)
    (hp : (clearW c).resolve i.dest = .ok p)
    (hports : c.ports.length = 256)
    (hscr1 : c.screen.length = 32) (hscr2 : ∀ row ∈ c.screen, row.length = 32) :
    (∃ c', executeStep c = .ok c' ∧
      c'.ports = c.ports.set (p % 256).toNat v1 ∧
      c'.ports.getD (p % 256).toNat 0 = v1 ∧
      c'.pipeline.W = (if p = 0 then some (c.core_id, i.dest) else none) ∧
      (p = 12 → pix c' (((c'.ports.getD 11 0) % 32).toNat)
        (((c'.ports.getD 10 0) % 32).toNat) = 1) ∧
      (p = 13 → ∀ r col, pix c' r col = 0)) ∧
    (∃ cD, ticks (ModularCPU.init progDraw) 6 = .ok cD ∧ pix cD 7 5 = 1) ∧
    (∃ cC, ticks (ModularCPU.init progDraw) 7 = .ok cC ∧ ∀ r col, pix cC r col = 0) ∧
    (∃ cx, ticks (ModularCPU.init prog256) 4 = .ok cx ∧
      cx.ports.getD 0 0 = 1 ∧ cx.pipeline.W = none) :=
  C2_out_semantics c i p v1 v2 hop hE hv1 hv2 hp hports hscr1 hscr2

/-- Witness for C2 at a concrete state whose Execute slot holds
`(OUT, 13, 0, 0)`: the framebuffer is cleared. -/
theorem C2_out_amended_witness :
    ∃ c', executeStep { ModularCPU.init [] with
        pipeline := { F := none, D := none,
                      E := some ⟨"OUT", .lit 13, .lit 0, .lit 0⟩, W := none } } = Except.ok c' ∧
      pix c' 3 4 = 0 := by
  obtain ⟨⟨c', hex, -, -, -, -, hclr⟩, -, -, -⟩ :=
    C2_out_amended
      { ModularCPU.init [] with
        pipeline := { F := none, D := none,
                      E := some ⟨"OUT", .lit 13, .lit 0, .lit 0⟩, W := none } }
      ⟨"OUT", .lit 13, .lit 0, .lit 0⟩ 13 0 0 rfl rfl rfl rfl rfl
      (List.length_replicate 256 0) (List.length_replicate 32 (List.replicate 32 0))
      (by intro row hrow
          rw [List.eq_of_mem_replicate hrow]
          exact List.length_replicate 32 0)
  exact ⟨c', hex, hclr rfl 3 4⟩

/-- Claim C6, counterexample: on an 11-instruction program starting with
`(JMP, 0, 0, 10)`, the tick that executes the jump does NOT end with an
empty Fetch slot and PC = 10: its own fetch stage immediately loads the
instruction at address 10 and increments PC to 11. -/
theorem C6_counterexample :
    ¬ (∀ c, ticks (ModularCPU.init prog11) 4 = Except.ok c →
        (c.pipeline.F = none ∧ c.pc = 10)) :=
  fun h => absurd (h _ rfl) (by decide)

/-- Claim C6, amended: whenever `(JMP, 0, 0, 10)` is in the Execute slot,
the tick that executes it empties the Decode and Execute slots, discards
whatever was previously in Fetch/Decode, and sets PC to 10 before its
fetch stage runs; at the end of the tick the Fetch slot holds exactly
the program entry at address 10 (empty when the program is shorter or
the entry is empty, in which case PC stays 10; otherwise PC is 11). -/
theorem C6_jmp_flush_amended (c c' : ModularCPU)
    (hE : c.pipeline.E = some ⟨"JMP", .lit 0, .lit 0, .lit 10⟩)
    (ht : tick c = .ok c') :
    c'.pipeline.E = none ∧ c'.pipeline.D = none ∧
    c'.pipeline.F = c.rom.getD 10 none ∧
    c'.pc = (if (c.rom.getD 10 none).isSome then 11 else 10) :=
  C6_jmp_flush c c' hE ht

/-- Witness for C6 on a 1-instruction program: address 10 is out of
bounds, so Fetch and Decode end empty and PC ends at 10. -/
theorem C6_jmp_flush_amended_witness :
    ∃ c', tick { ModularCPU.init [some ⟨"JMP", .lit 0, .lit 0, .lit 10⟩] with
        pc := 1,
        pipeline := { F := none, D := none,
                      E := some ⟨"JMP", .lit 0, .lit 0, .lit 10⟩, W := none } } = Except.ok c' ∧
      c'.pipeline.E = none ∧ c'.pipeline.D = none ∧ c'.pipeline.F = none ∧ c'.pc = 10 := by
  refine ⟨_, rfl, ?_⟩
  have h := C6_jmp_flush_amended
    { ModularCPU.init [some ⟨"JMP", .lit 0, .lit 0, .lit 10⟩] with
      pc := 1,
      pipeline := { F := none, D := none,
                    E := some ⟨"JMP", .lit 0, .lit 0, .lit 10⟩, W := none } } _ rfl rfl
  exact ⟨h.1, h.2.1, h.2.2.1.trans rfl, h.2.2.2.trans rfl⟩

/-- Claim C9: within `tick`, the pending Writeback payload is cleared
before any Execute-stage operand resolution runs, so `resolve` with an
empty payload slot coincides with the forwarding-free `resolveNoFwd`,
the Execute stage coincides with its forwarding-free variant, and the
whole of `tick` coincides with `tickNoFwd`: the forwarding branch of
`resolve` is dead code during `tick`. -/
theorem C9_forwarding_dead_in_tick :
    (∀ (c : ModularCPU) (op : Operand), c.pipeline.W = none →
      c.resolve op = resolveNoFwd c op) ∧
    (∀ c : ModularCPU, (clearW c).pipeline.W = none) ∧
    (∀ c : ModularCPU, executeStep c = executeStepNoFwd c) ∧
    (∀ c : ModularCPU, tick c = tickNoFwd c) :=
  ⟨fun _ op h => resolve_of_W_none h op, fun _ => rfl,
   executeStep_eq_noFwd, tick_eq_noFwd⟩

/-- Witness for C9 at the concrete initial state of `prog1`. -/
theorem C9_forwarding_dead_in_tick_witness :
    (ModularCPU.init prog1).resolve (Operand.reg 3) =
      resolveNoFwd (ModularCPU.init prog1) (Operand.reg 3) ∧
    tick (ModularCPU.init prog1) = tickNoFwd (ModularCPU.init prog1) :=
  ⟨C9_forwarding_dead_in_tick.1 (ModularCPU.init prog1) (Operand.reg 3) rfl,
   C9_forwarding_dead_in_tick.2.2.2 (ModularCPU.init prog1)⟩


/-! ## Byte-range invariant development (C7) -/


theorem byteVals_set {l : List Int} {v : Int} (hl : ByteVals l)
    (hv : 0 ≤ v ∧ v ≤ 255) (k : Nat) : ByteVals (l.set k v) := by
  intro x hx
  rcases List.mem_or_eq_of_mem_set hx with h | rfl
  · exact hl x h
  · exact hv

theorem resolve_byte {c : ModularCPU} (hW : c.pipeline.W = none)
    (hregs : ByteVals c.regs) {op : Operand} (hop : GoodOperand op)
    {v : Int} (h : c.resolve op = .ok v) : 0 ≤ v ∧ v ≤ 255 := by
  cases op with
  | reg k =>
    rw [show c.resolve (.reg k) = regRead c.regs k by
      unfold ModularCPU.resolve
      dsimp only
      rw [hW]] at h
    unfold regRead at h
    split at h
    · injection h with h
      rw [← h]
      exact hregs _ (List.get_mem _ _ _)
    · cases h
  | lit n =>
    injection h with h
    rw [← h]
    exact hop
  | null =>
    injection h with h
    rw [← h]
    norm_num

theorem inv_clearW {c : ModularCPU} (h : Inv c) : Inv (clearW c) := by
  obtain ⟨h1, h2, h3, h4, h5, h6, h7, h8, h9, h10, h11⟩ := h
  exact ⟨h1, h2, h3, h4, trivial, h6, h7, h8, h9, h10, h11⟩

theorem inv_writebackStep {c c1 : ModularCPU} (h : Inv c)
    (hw : writebackStep c = .ok c1) : Inv c1 := by
  rcases writebackStep_ok_cases hw with ⟨rfl, -⟩ | ⟨v, k, hWs, hk, rfl⟩
  · exact h
  · obtain ⟨h1, h2, h3, h4, h5, h6, h7, h8, h9, h10, h11⟩ := h
    have hv : 0 ≤ v ∧ v ≤ 255 := by rw [hWs] at h5; exact h5
    exact ⟨by simpa using h1, byteVals_set h2 hv k, h3, h4, h5, h6, h7, h8, h9, h10, h11⟩

theorem inv_executeInner {c c2 : ModularCPU} (h : Inv c) (hW : c.pipeline.W = none)
    (he : executeInner c = .ok c2) : Inv c2 := by
  obtain ⟨h1, h2, h3, h4, h5, h6, h7, h8, h9, h10, h11⟩ := h
  rcases executeInner_ok_cases he with ⟨-, rfl⟩ |
    ⟨i, v1, v2, hE, hv1, hv2, hbr⟩
  · exact ⟨h1, h2, h3, h4, h5, h6, h7, h8, h9, h10, h11⟩
  · have hgi : GoodInstr i := by rw [hE] at h8; exact h8
    have hv1b : 0 ≤ v1 ∧ v1 ≤ 255 := resolve_byte hW h2 hgi.2.1 hv1
    have hv2b : 0 ≤ v2 ∧ v2 ≤ 255 := resolve_byte hW h2 hgi.2.2 hv2
    rcases hbr with ⟨-, port, hp, rfl⟩ | ⟨-, -, rfl⟩ |
      ⟨-, -, -, d, hd, hdd⟩ | ⟨-, -, -, r, hr, rfl⟩
    · refine ⟨h1, h2, by simpa using h3, byteVals_set h4 hv1b _, ?_, h6, h7, h8, h9, h10, h11⟩
      by_cases hp0 : port = 0
      · show WByte (if port = 0 then some (c.core_id, i.dest) else none)
        rw [if_pos hp0]
        exact ⟨h10, h11⟩
      · show WByte (if port = 0 then some (c.core_id, i.dest) else none)
        rw [if_neg hp0]
        trivial
    · exact ⟨h1, h2, h3, h4, h5, trivial, trivial, h8, h9, h10, h11⟩
    · rcases hdd with ⟨-, rfl⟩ | ⟨-, rfl⟩
      · exact ⟨h1, h2, h3, h4, h5, trivial, trivial, h8, h9, h10, h11⟩
      · exact ⟨h1, h2, h3, h4, h5, h6, h7, h8, h9, h10, h11⟩
    · have hrt := execute_matches_table i.op hv1b hv2b
      have hre : r = aluSpecTable i.op v1 v2 := by injection hr.symm.trans hrt.1
      refine ⟨h1, h2, h3, h4, ?_, h6, h7, h8, h9, h10, h11⟩
      show WByte (some (r, i.dest))
      rw [hre]
      exact hrt.2

theorem inv_moveStep {c : ModularCPU} (h : Inv c) : Inv (moveStep c) := by
  obtain ⟨h1, h2, h3, h4, h5, h6, h7, h8, h9, h10, h11⟩ := h
  exact ⟨h1, h2, h3, h4, h5, h6, h6, h7, h9, h10, h11⟩

theorem inv_fetchStep {c c' : ModularCPU} (h : Inv c)
    (hf : fetchStep c = .ok c') : Inv c' := by
  obtain ⟨h1, h2, h3, h4, h5, h6, h7, h8, h9, h10, h11⟩ := h
  rcases fetchStep_ok_cases hf with ⟨-, rfl⟩ | ⟨-, e, he, hbr⟩
  · exact ⟨h1, h2, h3, h4, h5, trivial, h7, h8, h9, h10, h11⟩
  · have hmem : e ∈ c.rom := pyIdx_mem he
    rcases hbr with ⟨-, rfl⟩ | ⟨j, hj, rfl⟩
    · exact ⟨h1, h2, h3, h4, h5, trivial, h7, h8, h9, h10, h11⟩
    · refine ⟨h1, h2, h3, h4, h5, ?_, h7, h8, h9, h10, h11⟩
      show GoodEntry (some j)
      rw [← hj]
      exact h9 e hmem

theorem inv_tick {c c' : ModularCPU} (h : Inv c) (ht : tick c = .ok c') : Inv c' := by
  obtain ⟨c1, c2, hw, he, hf⟩ := (tick_ok_iff c c').mp ht
  have h1 := inv_writebackStep h hw
  have h2 : Inv c2 := inv_executeInner (inv_clearW h1) rfl he
  exact inv_fetchStep (inv_moveStep h2) hf

theorem inv_init {rom : List (Option Instr)} (h : GoodProg rom) :
    Inv (ModularCPU.init rom) := by
  refine ⟨List.length_replicate 8 0, ?_, List.length_replicate 256 0, ?_,
    trivial, trivial, trivial, trivial, h,
    show (0:Int) ≤ 0 by norm_num, show (0:Int) ≤ 255 by norm_num⟩
  · intro v hv
    rw [List.eq_of_mem_replicate hv]
    norm_num
  · intro v hv
    rw [List.eq_of_mem_replicate hv]
    norm_num

theorem inv_ticks {rom : List (Option Instr)} (h : GoodProg rom) (n : Nat)
    {c : ModularCPU} (ht : ticks (ModularCPU.init rom) n = .ok c) : Inv c := by
  induction n generalizing c with
  | zero =>
    injection ht with ht
    rw [← ht]
    exact inv_init h
  | succ k ih =>
    rw [ticks_add (ModularCPU.init rom) k 1] at ht
    obtain ⟨c1, hc1, ht⟩ := bind_ok_elim ht
    unfold ticks at ht
    obtain ⟨c2, htk, ht⟩ := bind_ok_elim ht
    injection ht with ht
    rw [← ht]
    exact inv_tick (ih hc1) htk



/-- Claim C7, counterexample: with an arbitrary integer literal the
byte-range invariant fails: on `[(OR, R0, 300, 0)]` (a well-typed
program under §7, whose literal exceeds 255) register R0 holds 300
after 5 ticks, because `OR` results are not masked and the writeback
commits the raw value.  (Similarly `[(OUT, 0, 300, 0)]` stores 300
into port 0.) -/
theorem C7_counterexample :
    ¬ (∀ c, ticks (ModularCPU.init progOr) 5 = Except.ok c →
        ∀ v ∈ c.regs, 0 ≤ v ∧ v ≤ 255) :=
  fun h => absurd (h _ rfl 300 (by decide)) (by decide)

/-- Claim C7, amended: for every program whose operands are register
references R0-R7, absent, or integer literals in [0,255] (`GoodProg`),
every state reachable by `tick` from construction has exactly 8
registers and 256 ports, all holding values in [0,255]. -/
theorem C7_byte_invariant (rom : List (Option Instr)) (hrom : GoodProg rom)
    (n : Nat) (c : ModularCPU)
    (ht : ticks (ModularCPU.init rom) n = .ok c) :
    c.regs.length = 8 ∧ (∀ v ∈ c.regs, 0 ≤ v ∧ v ≤ 255) ∧
    c.ports.length = 256 ∧ (∀ v ∈ c.ports, 0 ≤ v ∧ v ≤ 255) := by
  obtain ⟨h1, h2, h3, h4, -⟩ := inv_ticks hrom n ht
  exact ⟨h1, h2, h3, h4⟩

/-- Witness for C7 on `prog1` after 6 ticks. -/
theorem C7_byte_invariant_witness :
    ∃ c, ticks (ModularCPU.init prog1) 6 = Except.ok c ∧
      (c.regs.length = 8 ∧ (∀ v ∈ c.regs, 0 ≤ v ∧ v ≤ 255) ∧
       c.ports.length = 256 ∧ (∀ v ∈ c.ports, 0 ≤ v ∧ v ≤ 255)) :=
  ⟨_, rfl, C7_byte_invariant prog1 (by decide) 6 _ rfl⟩


/-! ## Halt/drain development (C8) -/


theorem resolve_total {c : ModularCPU} (hW : c.pipeline.W = none)
    (hlen : c.regs.length = 8) {op : Operand} (hop : GoodOperand op) :
    ∃ v, c.resolve op = .ok v := by
  cases op with
  | reg k =>
    refine ⟨c.regs.get ⟨k, ?_⟩, ?_⟩
    · rw [hlen]; exact hop
    · rw [show c.resolve (.reg k) = regRead c.regs k by
        unfold ModularCPU.resolve
        dsimp only
        rw [hW]]
      unfold regRead
      rw [dif_pos]
  | lit n => exact ⟨n, rfl⟩
  | null => exact ⟨0, rfl⟩

theorem writebackStep_total {c : ModularCPU} (hlen : c.regs.length = 8)
    (hWt : WTarget c.pipeline.W) : ∃ c1, writebackStep c = .ok c1 := by
  unfold writebackStep
  cases hw : c.pipeline.W with
  | none => exact ⟨c, rfl⟩
  | some p =>
    obtain ⟨v, t⟩ := p
    cases t with
    | reg k =>
      have hk : k < c.regs.length := by
        rw [hw] at hWt
        rw [hlen]
        exact hWt
      refine ⟨{ c with regs := c.regs.set k v }, ?_⟩
      dsimp only
      unfold regWrite
      rw [if_pos hk, bindOk]
    | lit n => exact ⟨c, rfl⟩
    | null => exact ⟨c, rfl⟩



theorem executeStep_total {c : ModularCPU} (hlen : c.regs.length = 8)
    (hbytes : ByteVals c.regs)
    (hE : GoodEntry c.pipeline.E) (hctl : NoCtl c.pipeline.E) :
    ∃ c2, executeStep c = .ok c2 := by
  unfold executeStep executeInner
  cases he : c.pipeline.E with
  | none =>
    rw [show (clearW c).pipeline.E = c.pipeline.E from rfl, he]
    exact ⟨clearW c, rfl⟩
  | some i =>
    rw [show (clearW c).pipeline.E = c.pipeline.E from rfl, he]
    dsimp only
    rw [he] at hE hctl
    have hcW : (clearW c).pipeline.W = none := rfl
    have hclen : (clearW c).regs.length = 8 := hlen
    obtain ⟨v1, hv1⟩ := resolve_total hcW hclen hE.2.1
    obtain ⟨v2, hv2⟩ := resolve_total hcW hclen hE.2.2
    have hv2b : 0 ≤ v2 ∧ v2 ≤ 255 := resolve_byte hcW hbytes hE.2.2 hv2
    rw [hv1, bindOk, hv2, bindOk]
    by_cases hOUT : i.op = "OUT"
    · rw [if_pos hOUT]
      obtain ⟨p, hp⟩ := resolve_total hcW hclen hE.1
      rw [hp, bindOk]
      exact ⟨_, rfl⟩
    · rw [if_neg hOUT, if_neg hctl.1, if_neg hctl.2]
      cases halu : ALU.execute i.op v1 v2 with
      | error e =>
        exfalso
        unfold ALU.execute at halu
        split_ifs at halu with hA hS hM hAnd hOr hX hB hNeg
        omega
      | ok r =>
        rw [bindOk]
        exact ⟨_, rfl⟩



theorem clearW_eq_self {c : ModularCPU} (h : c.pipeline.W = none) : clearW c = c := by
  obtain ⟨cid, regs, pc, rom, ram, ports, screen, F, D, E, W⟩ := c
  unfold clearW
  dsimp only at h
  rw [h]

theorem moveStep_eq_self {c : ModularCPU} (hF : c.pipeline.F = none)
    (hD : c.pipeline.D = none) (hE : c.pipeline.E = none) : moveStep c = c := by
  obtain ⟨cid, regs, pc, rom, ram, ports, screen, F, D, E, W⟩ := c
  unfold moveStep
  dsimp only at hF hD hE
  rw [hF, hD, hE]

theorem fetchStep_halt {c : ModularCPU} (h : (c.rom.length : Int) ≤ c.pc) :
    fetchStep c = .ok { c with pipeline := { c.pipeline with F := none } } := by
  unfold fetchStep
  rw [if_neg (not_lt.mpr h)]

theorem tick_fix {c : ModularCPU} (hF : c.pipeline.F = none)
    (hD : c.pipeline.D = none) (hE : c.pipeline.E = none)
    (hW : c.pipeline.W = none) (hpc : (c.rom.length : Int) ≤ c.pc) :
    tick c = .ok c := by
  have h1 : writebackStep c = .ok c := by
    unfold writebackStep
    rw [hW]
  have h2 : executeStep c = .ok c := by
    unfold executeStep executeInner
    rw [show (clearW c).pipeline.E = c.pipeline.E from rfl, hE, clearW_eq_self hW]
  unfold tick
  rw [h1, bindOk, h2, bindOk, moveStep_eq_self hF hD hE, fetchStep_halt hpc]
  rw [show { c with pipeline := { c.pipeline with F := none } } = c by
    obtain ⟨cid, regs, pc, rom, ram, ports, screen, F, D, E, W⟩ := c
    dsimp only at hF
    dsimp only
    rw [hF]]

theorem exec_noCtl_facts {c c2 : ModularCPU} (he : executeInner c = .ok c2)
    (hWn : c.pipeline.W = none)
    (hctl : NoCtl c.pipeline.E) (hgE : GoodEntry c.pipeline.E) :
    c2.pipeline.F = c.pipeline.F ∧ c2.pipeline.D = c.pipeline.D ∧
    c2.pipeline.E = c.pipeline.E ∧ c2.pc = c.pc ∧ c2.rom = c.rom ∧
    WTarget c2.pipeline.W ∧
    (c.pipeline.E = none → c2.pipeline.W = none) := by
  rcases executeInner_ok_cases he with ⟨hEn, rfl⟩ |
    ⟨i, v1, v2, hE, -, -, hbr⟩
  · refine ⟨rfl, rfl, rfl, rfl, rfl, ?_, fun _ => hWn⟩
    rw [hWn]
    trivial
  · have hgi : GoodInstr i := by rw [hE] at hgE; exact hgE
    have hc : NoCtl (some i) := by rw [hE] at hctl; exact hctl
    rcases hbr with ⟨-, p, -, rfl⟩ | ⟨-, hJ, -⟩ |
      ⟨-, -, hB, -⟩ | ⟨-, -, -, r, -, rfl⟩
    · refine ⟨rfl, rfl, rfl, rfl, rfl, ?_, fun hn => by rw [hE] at hn; cases hn⟩
      show WTarget (if p = 0 then some (c.core_id, i.dest) else none)
      by_cases hp0 : p = 0
      · rw [if_pos hp0]; exact hgi.1
      · rw [if_neg hp0]; trivial
    · exact absurd hJ hc.1
    · exact absurd hB hc.2
    · refine ⟨rfl, rfl, rfl, rfl, rfl, ?_, fun hn => by rw [hE] at hn; cases hn⟩
      show WTarget (some (r, i.dest))
      exact hgi.1



theorem drain_tick {c : ModularCPU} (h : DrainReady c) :
    ∃ c', tick c = .ok c' ∧ DrainReady c' ∧
      c'.pipeline.D = none ∧ c'.pipeline.E = c.pipeline.D ∧
      c'.pc = c.pc ∧ c'.rom = c.rom ∧
      (c.pipeline.E = none → c'.pipeline.W = none) := by
  obtain ⟨hInv, hF, hpc, hD, hE, hWt⟩ := h
  obtain ⟨c1, hw⟩ := writebackStep_total hInv.1 hWt
  have h1 : c1.pipeline = c.pipeline ∧ c1.rom = c.rom ∧ c1.pc = c.pc ∧
      c1.regs.length = c.regs.length := by
    rcases writebackStep_ok_cases hw with ⟨rfl, -⟩ | ⟨v, k, -, -, rfl⟩
    · exact ⟨rfl, rfl, rfl, rfl⟩
    · exact ⟨rfl, rfl, rfl, by simp⟩
  have hInv1 : Inv c1 := inv_writebackStep hInv hw
  obtain ⟨c2, he⟩ := executeStep_total hInv1.1 hInv1.2.1
    (by rw [h1.1]; exact hInv.2.2.2.2.2.2.2.1) (by rw [h1.1]; exact hE)
  have hfacts := exec_noCtl_facts (c := clearW c1) he rfl
    (by rw [show (clearW c1).pipeline.E = c1.pipeline.E from rfl, h1.1]; exact hE)
    (by rw [show (clearW c1).pipeline.E = c1.pipeline.E from rfl, h1.1]
        exact hInv.2.2.2.2.2.2.2.1)
  obtain ⟨hf2F, hf2D, hf2E, hf2pc, hf2rom, hf2Wt, hf2Wn⟩ := hfacts
  have hc2F : c2.pipeline.F = none := by
    rw [hf2F, show (clearW c1).pipeline.F = c1.pipeline.F from rfl, h1.1]; exact hF
  have hc2D : c2.pipeline.D = c.pipeline.D := by
    rw [hf2D, show (clearW c1).pipeline.D = c1.pipeline.D from rfl, h1.1]
  have hc2E : c2.pipeline.E = c.pipeline.E := by
    rw [hf2E, show (clearW c1).pipeline.E = c1.pipeline.E from rfl, h1.1]
  have hc2pc : c2.pc = c.pc := by
    rw [hf2pc, show (clearW c1).pc = c1.pc from rfl, h1.2.2.1]
  have hc2rom : c2.rom = c.rom := by
    rw [hf2rom, show (clearW c1).rom = c1.rom from rfl, h1.2.1]
  have hfpc : ((moveStep c2).rom.length : Int) ≤ (moveStep c2).pc := by
    show ((c2.rom.length : Int) ≤ c2.pc)
    rw [hc2rom, hc2pc]
    exact hpc
  have hfetch := fetchStep_halt hfpc
  have ht : tick c = .ok { moveStep c2 with
      pipeline := { (moveStep c2).pipeline with F := none } } := by
    unfold tick
    rw [hw, bindOk, he, bindOk, hfetch]
  refine ⟨_, ht, ?_, ?_, ?_, ?_, ?_, ?_⟩
  · refine ⟨inv_tick hInv ht, rfl, ?_, ?_, ?_, ?_⟩
    · show ((moveStep c2).rom.length : Int) ≤ (moveStep c2).pc
      exact hfpc
    · show NoCtl (moveStep c2).pipeline.D
      show NoCtl c2.pipeline.F
      rw [hc2F]
      trivial
    · show NoCtl (moveStep c2).pipeline.E
      show NoCtl c2.pipeline.D
      rw [hc2D]
      exact hD
    · show WTarget c2.pipeline.W
      exact hf2Wt
  · show c2.pipeline.F = none
    exact hc2F
  · show c2.pipeline.D = c.pipeline.D
    exact hc2D
  · show c2.pc = c.pc
    exact hc2pc
  · show c2.rom = c.rom
    exact hc2rom
  · intro hEn
    show c2.pipeline.W = none
    apply hf2Wn
    rw [show (clearW c1).pipeline.E = c1.pipeline.E from rfl, h1.1]
    exact hEn



theorem C8_drain_main (c : ModularCPU) (h : DrainReady c) :
    (∀ m c', ticks c m = .ok c' → c'.pipeline.F = none) ∧
    (∃ c3, ticks c 3 = .ok c3 ∧
      c3.pipeline.F = none ∧ c3.pipeline.D = none ∧ c3.pipeline.E = none ∧
      c3.pipeline.W = none ∧
      (∀ m, 3 ≤ m → ticks c m = .ok c3) ∧
      (∀ m c', 3 ≤ m → ticks c m = .ok c' → c'.regs = c3.regs)) := by
  obtain ⟨c1, ht1, hdr1, hD1, hE1, hpc1, hrom1, hW1cond⟩ := drain_tick h
  obtain ⟨c2, ht2, hdr2, hD2, hE2, hpc2, hrom2, hW2cond⟩ := drain_tick hdr1
  obtain ⟨c3, ht3, hdr3, hD3, hE3, hpc3, hrom3, hW3cond⟩ := drain_tick hdr2
  have hE2n : c2.pipeline.E = none := by rw [hE2, hD1]
  have hE3n : c3.pipeline.E = none := by rw [hE3, hD2]
  have hW3 : c3.pipeline.W = none := hW3cond hE2n
  have hF3 : c3.pipeline.F = none := hdr3.2.1
  have hpcf : (c3.rom.length : Int) ≤ c3.pc := hdr3.2.2.1
  have hfix : tick c3 = .ok c3 := tick_fix hF3 hD3 hE3n hW3 hpcf
  have ht1' : ticks c 1 = .ok c1 := by
    unfold ticks
    rw [ht1, bindOk]
    rfl
  have ht2' : ticks c 2 = .ok c2 := by
    unfold ticks
    rw [ht1, bindOk]
    unfold ticks
    rw [ht2, bindOk]
    rfl
  have ht3' : ticks c 3 = .ok c3 := by
    unfold ticks
    rw [ht1, bindOk]
    unfold ticks
    rw [ht2, bindOk]
    unfold ticks
    rw [ht3, bindOk]
    rfl
  have hstab : ∀ k, ticks c3 k = .ok c3 := by
    intro k
    induction k with
    | zero => rfl
    | succ j ih =>
      unfold ticks
      rw [hfix, bindOk]
      exact ih
  have hge3 : ∀ m, 3 ≤ m → ticks c m = .ok c3 := by
    intro m hm
    obtain ⟨k, rfl⟩ : ∃ k, m = 3 + k := ⟨m - 3, by omega⟩
    rw [ticks_add c 3 k, ht3', bindOk]
    exact hstab k
  refine ⟨?_, c3, ht3', hF3, hD3, hE3n, hW3, hge3, ?_⟩
  · intro m c' hm
    by_cases h3 : 3 ≤ m
    · rw [hge3 m h3] at hm
      injection hm with hm
      rw [← hm]
      exact hF3
    · rcases m with _ | _ | _ | m4
      · injection hm with hm
        rw [← hm]
        exact h.2.1
      · rw [ht1'] at hm
        injection hm with hm
        rw [← hm]
        exact hdr1.2.1
      · rw [ht2'] at hm
        injection hm with hm
        rw [← hm]
        exact hdr2.2.1
      · exact absurd (by omega) h3
  · intro m c' hm3 hm
    rw [hge3 m hm3] at hm
    injection hm with hm
    rw [← hm]



/-- Claim C8, counterexample: the program `[(JMP, 0, 0, 0)]` runs off
the end after its only fetch (PC = 1 = program length at the end of
tick 1), yet the Fetch slot is NOT perpetually empty afterwards: when
the drained jump executes in tick 4 it redirects PC back to 0 and that
same tick fetches the instruction again. -/
theorem C8_counterexample :
    ¬ (∀ c1 c4, ticks (ModularCPU.init progLoop) 1 = Except.ok c1 →
        ticks (ModularCPU.init progLoop) 4 = Except.ok c4 →
        (c1.rom.length : Int) ≤ c1.pc → c4.pipeline.F = none) :=
  fun h => absurd (h _ _ rfl rfl (by decide)) (by decide)

/-- Claim C8, amended: for a state in which the fetch has already run
dry (Fetch empty, PC at/past the program length) and no in-flight
instruction is a control-flow instruction (`DrainReady`, which also
carries the well-formedness invariant), every subsequent tick leaves
the Fetch slot empty, the previously fetched instructions drain through
Decode/Execute/Writeback over the following three ticks, and after
those three ticks the machine state — in particular the register
file — never changes again. -/
theorem C8_halt_drain_amended (c : ModularCPU) (h : DrainReady c) :
    (∀ m c', ticks c m = .ok c' → c'.pipeline.F = none) ∧
    (∃ c3, ticks c 3 = .ok c3 ∧
      c3.pipeline.F = none ∧ c3.pipeline.D = none ∧ c3.pipeline.E = none ∧
      c3.pipeline.W = none ∧
      (∀ m, 3 ≤ m → ticks c m = .ok c3) ∧
      (∀ m c', 3 ≤ m → ticks c m = .ok c' → c'.regs = c3.regs)) :=
  C8_drain_main c h

/-- Witness for C8 at a concrete drained state: a filler `ADD` sits in
Decode, fetch has run dry at PC = 1 on a 1-instruction program. -/
theorem C8_halt_drain_amended_witness :
    ∃ c3, ticks { ModularCPU.init [some ⟨"ADD", .reg 0, .lit 0, .lit 0⟩] with
        pc := 1,
        pipeline := { F := none, D := some ⟨"ADD", .reg 0, .lit 0, .lit 0⟩,
                      E := none, W := none } } 3 = .ok c3 ∧
      c3.pipeline.F = none ∧ c3.pipeline.D = none ∧ c3.pipeline.E = none ∧
      c3.pipeline.W = none ∧
      (∀ m, 3 ≤ m → ticks { ModularCPU.init [some ⟨"ADD", .reg 0, .lit 0, .lit 0⟩] with
          pc := 1,
          pipeline := { F := none, D := some ⟨"ADD", .reg 0, .lit 0, .lit 0⟩,
                        E := none, W := none } } m = .ok c3) ∧
      (∀ m c', 3 ≤ m → ticks { ModularCPU.init [some ⟨"ADD", .reg 0, .lit 0, .lit 0⟩] with
          pc := 1,
          pipeline := { F := none, D := some ⟨"ADD", .reg 0, .lit 0, .lit 0⟩,
                        E := none, W := none } } m = .ok c' → c'.regs = c3.regs) :=
  (C8_halt_drain_amended _ (by
    refine ⟨⟨List.length_replicate 8 0, ?_, List.length_replicate 256 0, ?_,
      trivial, trivial, by decide, trivial, by decide,
      show (0:Int) ≤ 0 by norm_num, show (0:Int) ≤ 255 by norm_num⟩,
      rfl, by decide, by decide, trivial, trivial⟩
    · intro v hv
      rw [List.eq_of_mem_replicate hv]
      norm_num
    · intro v hv
      rw [List.eq_of_mem_replicate hv]
      norm_num)).2


end Aethel
